import Mathlib

/-!
Verification of the bcachefs-exporter collection pipeline.

The development shallowly embeds `src/main.rs`: the virtual filesystem the
program walks is carried as explicit data (directory listings and file
contents), fallible steps return `Except`, and the three process-aborting
panics of the source (`unwrap` on a missing first line, the `assert_eq!` on
the table header, and the `panic!` on an unhandled row) are embedded as
distinguished non-recoverable outcomes, kept separate from the recoverable
error values. Machine integers (`u64`/`usize` on the 64-bit target) are
natural numbers reduced modulo 2 ^ 64 exactly where the source's arithmetic
can wrap.
-/

namespace BcachefsExporter

/-- Value of an ASCII digit string, most significant digit first. -/
def digits_to_nat (cs : List Char) : Nat :=
  cs.foldl (fun a c => a * 10 + (c.toNat - 48)) 0

/-- Rust `str::parse::<u64>` (and `parse::<usize>` on the 64-bit target):
an optional leading plus sign, then one or more ASCII digits; anything
else, the empty string, and values not representable in 64 bits are
rejected. -/
def parseU64 (s : String) : Option Nat :=
  let cs := match s.data with
    | '+' :: rest => rest
    | cs => cs
  if cs ≠ [] ∧ cs.all Char.isDigit ∧ digits_to_nat cs < 2 ^ 64 then
    some (digits_to_nat cs)
  else
    none

/-- Accumulator-style worker for `split_whitespace`; `cur` holds the
characters of the token currently being read, in reverse. -/
def split_whitespace_aux : List Char → List Char → List String
  | [], cur => if cur = [] then [] else [String.mk cur.reverse]
  | c :: cs, cur =>
    if c.isWhitespace then
      if cur = [] then split_whitespace_aux cs []
      else String.mk cur.reverse :: split_whitespace_aux cs []
    else split_whitespace_aux cs (c :: cur)

/-- Rust `str::split_whitespace`: the maximal whitespace-free tokens of the
string, with no empty tokens. (ASCII whitespace; the source's Unicode
whitespace classes beyond ASCII are not modelled.) -/
def split_whitespace (s : String) : List String :=
  split_whitespace_aux s.data []

/-- Drop one trailing carriage return, as Rust `str::lines` does per line. -/
def strip_cr (l : List Char) : List Char :=
  if l.getLast? = some '\r' then l.dropLast else l

/-- Worker for `rust_lines`; `cur` holds the current line, in reverse. -/
def rust_lines_aux : List Char → List Char → List String
  | [], cur => if cur = [] then [] else [String.mk (strip_cr cur.reverse)]
  | c :: cs, cur =>
    if c = '\n' then String.mk (strip_cr cur.reverse) :: rust_lines_aux cs []
    else rust_lines_aux cs (c :: cur)

/-- Rust `str::lines`: lines split at newline characters, the newline not
included, a final trailing newline producing no extra empty line. -/
def rust_lines (s : String) : List String :=
  rust_lines_aux s.data []

/-- Rust `str::trim` (ASCII whitespace). -/
def rust_trim (s : String) : String :=
  String.mk (((s.data.dropWhile Char.isWhitespace).reverse.dropWhile Char.isWhitespace).reverse)

/-- Rust `str::replace` with a single-character pattern: every occurrence of
`pat` becomes the replacement sequence `rep`. -/
def replace_char (pat : Char) (rep : List Char) : List Char → List Char
  | [] => []
  | c :: cs => (if c = pat then rep else [c]) ++ replace_char pat rep cs

/-- Recoverable error values of the pipeline, following the taxonomy the
source surfaces through `anyhow::Result`: discovery failures, missing
pseudo-files, and number-parse failures. `unexpectedFormat` is the variant
the specification ascribes to header/row mismatches; the source never
constructs it (it panics instead), and it is present here so that statements
about it can be expressed. -/
inductive CollectError where
  | discoveryError (file_name : String)
  | missingLink
  | missingAttribute (what : String)
  | ioError (what : String)
  | invalidNumber (text : String)
  | unexpectedFormat (what : String)
deriving DecidableEq

/-- Outcome of a fallible step: either a recoverable error value carried by
`Result`, or one of the three process-aborting panics present in the
source — `lines.next().unwrap()` on an empty file, the `assert_eq!` on the
table header, and the unhandled-row panic. -/
inductive RtError where
  | err (e : CollectError)
  | unwrapFailed
  | headerAssertFailed (header : List String)
  | lineUnhandled (line : String)
deriving DecidableEq

/-- Whether an outcome is a process abort (panic) rather than a recoverable
error value. -/
def RtError.isPanicAbort : RtError → Bool
  | .err _ => false
  | _ => true

instance exceptDecEq {ε α : Type} [DecidableEq ε] [DecidableEq α] : DecidableEq (Except ε α) := fun x y =>
  match x, y with
  | .error a, .error b =>
    if h : a = b then .isTrue (by rw [h]) else .isFalse (by simp [h])
  | .error _, .ok _ => .isFalse (by simp)
  | .ok _, .error _ => .isFalse (by simp)
  | .ok a, .ok b =>
    if h : a = b then .isTrue (by rw [h]) else .isFalse (by simp [h])

/-- Label set of one metric: key-value pairs in insertion order, as in the
source's `type Labels = Vec<(&'static str, String)>`. -/
abbrev Labels := List (String × String)

/-- One measurement: name, labels, and the byte value. The source stores the
value as `f64`; every value it constructs is an exact 64-bit integer cast to
`f64` at the end, and the claims under verification concern the integer
arithmetic before that cast, so the value is carried as the integer. -/
structure Metric where
  name : String
  labels : Labels
  value : Nat
deriving DecidableEq

/-- Label-value escaping of `Metric::encode_labels`: three sequential
single-character `replace` passes, backslash first, then newline, then
double-quote. -/
def escape_value (v : String) : String :=
  String.mk (replace_char '"' ['\\', '"']
    (replace_char '\n' ['\\', 'n']
      (replace_char '\\' ['\\', '\\'] v.data)))

/-- Loop of `Metric::encode_labels`: `out` accumulates
`key="escaped-value",` for each pair, a comma after every pair. -/
def encode_labels_aux : String → Labels → String
  | out, [] => out
  | out, (k, v) :: rest =>
    encode_labels_aux (out ++ k ++ "=\"" ++ escape_value v ++ "\",") rest

/-- `Metric::encode_labels`. -/
def encode_labels (labels : Labels) : String :=
  encode_labels_aux "" labels

/-- `Metric::encode`: one exposition-format line
`name` `\x7b` labels `\x7d` space value newline. -/
def Metric.encode (m : Metric) : String :=
  m.name ++ "\x7b" ++ encode_labels m.labels ++ "\x7d " ++ Nat.repr m.value ++ "\n"

/-- Single-pass character escaping; proved below to agree with the three
sequential passes of `escape_value`. -/
def esc_char (c : Char) : List Char :=
  if c = '\\' then ['\\', '\\']
  else if c = '\n' then ['\\', 'n']
  else if c = '"' then ['\\', '"']
  else [c]

/-- Single-pass escaping of a character list. -/
def esc_chars : List Char → List Char
  | [] => []
  | c :: cs => esc_char c ++ esc_chars cs

/-- Character-level image of `encode_labels`, used to reason about the
encoded text. -/
def enc_chars : Labels → List Char
  | [] => []
  | (k, v) :: rest => k.data ++ '=' :: '"' :: (esc_chars v.data ++ '"' :: ',' :: enc_chars rest)

/-- Conforming exposition-format reader, escape decoding: backslash
followed by backslash, `n`, or double-quote; anything else after a
backslash is rejected. -/
def unescape_char (c : Char) : Option Char :=
  if c = '\\' then some '\\'
  else if c = 'n' then some '\n'
  else if c = '"' then some '"'
  else none

/-- Conforming exposition-format reader, quoted label value: reads decoded
characters until the closing unescaped double-quote, rejecting raw newlines
(the format is line-based) and malformed escapes; returns the decoded value
and the input following the closing quote. -/
def parse_value : List Char → Option (List Char × List Char)
  | [] => none
  | c :: rest =>
    if c = '"' then some ([], rest)
    else if c = '\\' then
      match rest with
      | [] => none
      | d :: rest2 =>
        match unescape_char d with
        | some u => (parse_value rest2).map (fun p => (u :: p.1, p.2))
        | none => none
    else if c = '\n' then none
    else (parse_value rest).map (fun p => (c :: p.1, p.2))

/-- Conforming exposition-format reader, label key: the characters before
the `=` sign. -/
def parse_key : List Char → Option (List Char × List Char)
  | [] => none
  | c :: rest =>
    if c = '=' then some ([], rest)
    else (parse_key rest).map (fun p => (c :: p.1, p.2))

/-- Conforming exposition-format reader, label list body: a sequence of
`key="value",` groups. Fuelled to make the recursion structural; the fuel is
instantiated with the input length, an upper bound on the number of
groups. -/
def parse_labels_aux (fuel : Nat) (s : List Char) : Option Labels :=
  if s = [] then some []
  else
    match fuel with
    | 0 => none
    | fuel + 1 =>
      match parse_key s with
      | none => none
      | some (key, r1) =>
        match r1 with
        | '"' :: r2 =>
          match parse_value r2 with
          | none => none
          | some (v, r3) =>
            match r3 with
            | ',' :: r4 => (parse_labels_aux fuel r4).map (fun rest => (String.mk key, String.mk v) :: rest)
            | _ => none
        | _ => none

/-- Conforming exposition-format reader for the text between the braces of
an encoded metric line. -/
def parse_labels (s : List Char) : Option Labels :=
  parse_labels_aux s.length s

/-- Hexadecimal digit (either case), for identifier parsing. -/
def is_hex_digit (c : Char) : Bool :=
  c.isDigit || ('a' ≤ c && c ≤ 'f') || ('A' ≤ c && c ≤ 'F')

/-- Worker splitting at hyphens; `cur` holds the current group reversed. -/
def split_on_hyphen_aux : List Char → List Char → List (List Char)
  | [], cur => [cur.reverse]
  | c :: cs, cur =>
    if c = '-' then cur.reverse :: split_on_hyphen_aux cs []
    else split_on_hyphen_aux cs (c :: cur)

/-- Modelled from the spec: `Uuid::parse_str` of the external `uuid` crate
is not part of this repository; per the spec (§3) each root entry name
"must parse as the canonical identifier format", the canonical textual form
of a 128-bit identifier: five hyphen-separated hexadecimal groups of sizes
8-4-4-4-12. The parsed identifier renders back in lowercase, as the crate's
`to_string` does. -/
def parse_uuid (s : String) : Option String :=
  let parts := split_on_hyphen_aux s.data []
  if parts.map List.length = [8, 4, 4, 4, 12] ∧ parts.all (fun p => p.all is_hex_digit) then
    some (String.mk (s.data.map Char.toLower))
  else
    none

/-- Modelled from the spec: `Byte::parse_str` of the external `byte_unit`
crate is not part of this repository; per the spec (§4.4) the bucket-size
file is parsed "as a human-readable byte quantity (supports common
binary/decimal unit suffixes, e.g. 512 KiB)" returning the raw byte count.
Modelled as an integer count followed by an optional common binary or
decimal unit, the result capped at 64 bits as by `as_u64`. -/
def parse_byte_quantity (s : String) : Option Nat :=
  let cs := (rust_trim s).data
  let digits := cs.takeWhile Char.isDigit
  let rest := cs.dropWhile Char.isDigit
  if digits = [] then none
  else
    let n := digits_to_nat digits
    let unit := rust_trim (String.mk rest)
    let mult : Option Nat :=
      if unit = "" ∨ unit = "B" then some 1
      else if unit = "KiB" then some 1024
      else if unit = "MiB" then some (1024 ^ 2)
      else if unit = "GiB" then some (1024 ^ 3)
      else if unit = "TiB" then some (1024 ^ 4)
      else if unit = "KB" then some 1000
      else if unit = "MB" then some (1000 ^ 2)
      else if unit = "GB" then some (1000 ^ 3)
      else if unit = "TB" then some (1000 ^ 4)
      else none
    match mult with
    | some m => if n * m < 2 ^ 64 then some (n * m) else none
    | none => none

/-- Pseudo-files of one `dev-N` directory, as the extractor reads them:
the final path segment of the `block` symlink target (absent if the link is
missing), and the raw contents of the `label`, `bucket_size`, and
`alloc_debug` files (absent if unreadable). -/
structure DeviceFiles where
  blockLinkTarget : Option String
  labelFile : Option String
  bucketSizeFile : Option String
  allocDebugFile : Option String
deriving DecidableEq

/-- One entry of a filesystem instance's directory listing: its name and,
when it is a device directory, the device's pseudo-files. -/
structure DirEntry where
  name : String
  files : DeviceFiles
deriving DecidableEq

/-- One entry of the root directory listing: the filesystem directory name
and its own directory listing. -/
structure FsEntry where
  name : String
  entries : List DirEntry
deriving DecidableEq

/-- The source's `Device`: the owning filesystem's identifier (the source
holds a borrowed `Fs`; the embedding carries its rendered identifier), the
ordinal parsed from the `dev-N` directory name, and the device directory's
pseudo-files (the source re-reads them by path; the tree is immutable
within one collection pass). -/
structure Device where
  fs_uuid : String
  device_no : Nat
  files : DeviceFiles
deriving DecidableEq

/-- `sectors_to_bytes`: parse the sector count and shift left by nine, the
shift performed in `usize` so that bits above the 64th are discarded. -/
def sectors_to_bytes (sectors : String) : Except RtError Nat :=
  match parseU64 sectors with
  | some n => .ok ((n <<< 9) % 2 ^ 64)
  | none => .error (.err (.invalidNumber sectors))

/-- `Device::bucket_size`: read the `bucket_size` file and parse it as a
byte quantity. -/
def Device.bucket_size (d : Device) : Except RtError Nat :=
  match d.files.bucketSizeFile with
  | none => .error (.err (.missingAttribute "bucket_size"))
  | some content =>
    match parse_byte_quantity content with
    | some n => .ok n
    | none => .error (.err (.invalidNumber content))

/-- `Device::buckets_to_bytes`: parse the bucket count and multiply by the
bucket size, the `u64` product reduced modulo 2 ^ 64 (release-profile
wrapping; a debug build would abort here instead on overflow). -/
def Device.buckets_to_bytes (d : Device) (buckets : String) : Except RtError Nat :=
  match parseU64 buckets with
  | none => .error (.err (.invalidNumber buckets))
  | some n => do
    let bucket_size ← d.bucket_size
    .ok ((bucket_size * n) % 2 ^ 64)

/-- Row loop of `Device::alloc_debug` (source lines 207-233): stop at the
first empty line; four tokens make a typed row (only the first and third
tokens are used), `capacity` plus a count makes a capacity row, and any
other shape hits the `can't handle line` panic. -/
def Device.alloc_rows (d : Device) (device_labels : Labels) : List String → Except RtError (List Metric)
  | [] => .ok []
  | line :: rest =>
    if line = "" then .ok []
    else
      match split_whitespace line with
      | [type_, _buckets, sectors, _fragmented] => do
        let v ← sectors_to_bytes sectors
        let ms ← Device.alloc_rows d device_labels rest
        .ok (⟨"bcachefs_dev_alloc_bytes", device_labels ++ [("type", type_)], v⟩ :: ms)
      | [c, buckets] =>
        if c = "capacity" then do
          let v ← d.buckets_to_bytes buckets
          let ms ← Device.alloc_rows d device_labels rest
          .ok (⟨"bcachefs_dev_capacity", device_labels, v⟩ :: ms)
        else .error (.lineUnhandled line)
      | _ => .error (.lineUnhandled line)

/-- `Device::alloc_debug`: read the table, take the first line unchecked
(`unwrap`), assert it tokenizes to `buckets sectors fragmented`, then run
the row loop. -/
def Device.alloc_debug (d : Device) (device_labels : Labels) : Except RtError (List Metric) :=
  match d.files.allocDebugFile with
  | none => .error (.err (.ioError "alloc_debug"))
  | some s =>
    match rust_lines s with
    | [] => .error .unwrapFailed
    | header :: rest =>
      if split_whitespace header = ["buckets", "sectors", "fragmented"] then
        Device.alloc_rows d device_labels rest
      else
        .error (.headerAssertFailed (split_whitespace header))

/-- `Device::get_metrics`: resolve the block-device name from the symlink,
read and trim the label, build the base label set in insertion order
fs, device_no, device, label, and parse the allocation table. -/
def Device.get_metrics (d : Device) : Except RtError (List Metric) := do
  let device_name ← match d.files.blockLinkTarget with
    | none => Except.error (RtError.err .missingLink)
    | some n => Except.ok n
  let label ← match d.files.labelFile with
    | none => Except.error (RtError.err (.missingAttribute "label"))
    | some l => Except.ok (rust_trim l)
  let device_labels : Labels :=
    [("fs", d.fs_uuid), ("device_no", Nat.repr d.device_no), ("device", device_name), ("label", label)]
  d.alloc_debug device_labels

/-- Whether a directory-entry name starts with the fixed `dev-` text. -/
def starts_with_dev (s : String) : Bool :=
  match s.data with
  | 'd' :: 'e' :: 'v' :: '-' :: _ => true
  | _ => false

/-- The name with the leading `dev-` removed. -/
def dev_suffix (s : String) : String :=
  String.mk (s.data.drop 4)

/-- `Fs::find_devices`: entries not beginning with `dev-` are skipped;
for the rest the suffix must parse as a device ordinal, anything else being
a discovery error that aborts the walk. -/
def Fs.find_devices (fs_uuid : String) : List DirEntry → Except RtError (List Device)
  | [] => .ok []
  | e :: rest =>
    if starts_with_dev e.name then
      match parseU64 (dev_suffix e.name) with
      | none => .error (.err (.discoveryError e.name))
      | some n => do
        let ds ← Fs.find_devices fs_uuid rest
        .ok (⟨fs_uuid, n, e.files⟩ :: ds)
    else
      Fs.find_devices fs_uuid rest

/-- Device loop of `Fs::get_metrics`: extract each device in turn,
concatenating, any failure aborting the whole loop. -/
def metrics_of_devices : List Device → Except RtError (List Metric)
  | [] => .ok []
  | dv :: rest => do
    let m ← dv.get_metrics
    let ms ← metrics_of_devices rest
    .ok (m ++ ms)

/-- `Fs::get_metrics`: discover the devices, then extract each. -/
def Fs.get_metrics (fs_uuid : String) (entries : List DirEntry) : Except RtError (List Metric) :=
  match Fs.find_devices fs_uuid entries with
  | .error e => .error e
  | .ok devices => metrics_of_devices devices

/-- `find_bcachefs`: parse every root entry name as an identifier, any
malformed name aborting discovery; each filesystem keeps its directory
listing for the later device walk. -/
def find_bcachefs : List FsEntry → Except RtError (List (String × List DirEntry))
  | [] => .ok []
  | fse :: rest =>
    match parse_uuid fse.name with
    | none => .error (.err (.discoveryError fse.name))
    | some u => do
      let tl ← find_bcachefs rest
      .ok ((u, fse.entries) :: tl)

/-- Filesystem loop of the top-level `get_metrics`. -/
def metrics_of_fss : List (String × List DirEntry) → Except RtError (List Metric)
  | [] => .ok []
  | (u, es) :: rest => do
    let m ← Fs.get_metrics u es
    let ms ← metrics_of_fss rest
    .ok (m ++ ms)

/-- Top-level `get_metrics`: discover all filesystems, then collect each
one's metrics, concatenating in discovery order. -/
def get_metrics (root : List FsEntry) : Except RtError (List Metric) :=
  match find_bcachefs root with
  | .error e => .error e
  | .ok fss => metrics_of_fss fss

/-- Shape test: a typed (four-token) data row. -/
def typed_row_shape (line : String) : Bool :=
  (split_whitespace line).length == 4

/-- Shape test: a capacity data row. -/
def capacity_row_shape (line : String) : Bool :=
  match split_whitespace line with
  | [c, _] => c == "capacity"
  | _ => false

/-- Shape test: a data row that matches neither the typed nor the capacity
pattern, i.e. one the row loop panics on. -/
def bad_row_shape (line : String) : Bool :=
  match split_whitespace line with
  | [_, _, _, _] => false
  | [c, _] => !(c == "capacity")
  | _ => true

/-- A data row the row loop accepts on device `d`: the shape matches and
the numeric tokens it actually parses do parse. -/
def good_row (d : Device) (line : String) : Bool :=
  match split_whitespace line with
  | [_, _, sectors, _] => (sectors_to_bytes sectors).isOk
  | [c, buckets] => c == "capacity" && (d.buckets_to_bytes buckets).isOk
  | _ => false

/-! ## Helper lemmas -/

theorem string_data_append (a b : String) : (a ++ b).data = a.data ++ b.data := by
  cases a
  cases b
  rfl

theorem string_mk_data (s : String) : String.mk s.data = s := rfl

theorem string_data_inj {a b : String} (h : a.data = b.data) : a = b := by
  cases a
  cases b
  exact congrArg String.mk h

theorem except_bind_eq_ok {ε α β : Type} (x : Except ε α) (f : α → Except ε β) (r : β) :
    (x >>= f) = Except.ok r ↔ ∃ v, x = Except.ok v ∧ f v = Except.ok r := by
  cases x <;> simp [Bind.bind, Except.bind]

theorem except_isOk_iff {ε α : Type} (x : Except ε α) :
    x.isOk = true ↔ ∃ v, x = Except.ok v := by
  cases x <;> simp [Except.isOk, Except.toBool]

theorem split_whitespace_empty : split_whitespace "" = [] := rfl

/-! ## C4 -/

/-- C4 (amended): for a string that parses as a 64-bit unsigned integer `n`
with `512 * n` representable in 64 bits, `sectors_to_bytes` returns exactly
`512 * n`; for a string that does not parse, it returns the
`invalidNumber` error carrying the offending text. (Without the size bound
the shift wraps modulo 2 ^ 64.) -/
theorem c4_sectors_to_bytes_spec (s : String) :
    (∀ n, parseU64 s = some n → 512 * n < 2 ^ 64 →
      sectors_to_bytes s = Except.ok (512 * n)) ∧
    (parseU64 s = none →
      sectors_to_bytes s = Except.error (RtError.err (CollectError.invalidNumber s))) := by
  constructor
  · intro n hn hlt
    simp only [sectors_to_bytes, hn, Nat.shiftLeft_eq]
    have h9 : (2 : Nat) ^ 9 = 512 := by norm_num
    rw [h9, Nat.mul_comm n 512, Nat.mod_eq_of_lt hlt]
  · intro hn
    simp [sectors_to_bytes, hn]

/-- C4 witness: concrete application at input `"20"`. -/
theorem c4_witness :
    parseU64 "20" = some 20 ∧ sectors_to_bytes "20" = Except.ok (512 * 20) :=
  ⟨by decide, (c4_sectors_to_bytes_spec "20").1 20 (by decide) (by decide)⟩

/-- C4 counterexample: `"36028797018963968"` (2 ^ 55) parses, but the
`usize` shift discards the overflowing bit, so the result is 0, not
`512 * 2 ^ 55`. -/
theorem c4_counterexample :
    parseU64 "36028797018963968" = some 36028797018963968 ∧
    sectors_to_bytes "36028797018963968" = Except.ok 0 ∧
    512 * 36028797018963968 ≠ 0 := by
  refine ⟨by decide, ?_, by decide⟩
  decide

/-! ## C5 -/

/-- C5 (amended): for a bucket-size file that parses as byte quantity `m`
and a bucket count that parses as `n`, with the product representable in 64
bits, `Device::buckets_to_bytes` returns exactly `n * m`. (Without the size
bound the release-profile `u64` product wraps modulo 2 ^ 64.) -/
theorem c5_buckets_to_bytes_spec (d : Device) (b c : String) (m n : Nat)
    (hb : d.files.bucketSizeFile = some b)
    (hbq : parse_byte_quantity b = some m)
    (hc : parseU64 c = some n)
    (hlt : n * m < 2 ^ 64) :
    d.buckets_to_bytes c = Except.ok (n * m) := by
  simp only [Device.buckets_to_bytes, hc, Device.bucket_size, hb, hbq]
  have hlt' : m * n < 2 ^ 64 := by rw [Nat.mul_comm]; exact hlt
  simp [Bind.bind, Except.bind, Nat.mod_eq_of_lt hlt', Nat.mul_comm m n]
  omega

/-- C5 witness: the spec's own example, a `4 KiB` bucket size and 100
buckets, giving 409600 bytes. -/
theorem c5_witness :
    parse_byte_quantity "4 KiB\n" = some 4096 ∧ parseU64 "100" = some 100 ∧
    Device.buckets_to_bytes
      ⟨"u", 0, ⟨none, none, some "4 KiB\n", none⟩⟩ "100" = Except.ok (100 * 4096) :=
  ⟨by decide, by decide,
    c5_buckets_to_bytes_spec _ "4 KiB\n" "100" 4096 100 rfl (by decide) (by decide) (by decide)⟩

/-- C5 counterexample: bucket size `2 ^ 32` bytes and `2 ^ 32` buckets both
parse, but the 64-bit product wraps to 0, not `2 ^ 64`. -/
theorem c5_counterexample :
    parse_byte_quantity "4294967296" = some 4294967296 ∧
    parseU64 "4294967296" = some 4294967296 ∧
    Device.buckets_to_bytes
      ⟨"u", 0, ⟨none, none, some "4294967296", none⟩⟩ "4294967296" = Except.ok 0 ∧
    4294967296 * 4294967296 ≠ 0 := by
  refine ⟨by decide, by decide, ?_, by decide⟩
  decide

/-! ## C1 -/

/-- C1 (amended): a table whose first line does not tokenize to
`buckets sectors fragmented` makes `Device::alloc_debug` abort with the
header assertion panic — a process abort, not a recoverable
`unexpectedFormat` error result, and in particular never a (partial)
metric list. -/
theorem c1_header_mismatch_panics (d : Device) (lbls : Labels) (s header : String)
    (rest : List String)
    (ha : d.files.allocDebugFile = some s)
    (hl : rust_lines s = header :: rest)
    (hbad : split_whitespace header ≠ ["buckets", "sectors", "fragmented"]) :
    Device.alloc_debug d lbls =
      Except.error (RtError.headerAssertFailed (split_whitespace header)) ∧
    (RtError.headerAssertFailed (split_whitespace header)).isPanicAbort = true := by
  refine ⟨?_, rfl⟩
  simp [Device.alloc_debug, ha, hl, hbad]

/-- C1 witness: concrete application to a device whose table starts
`xxx yyy`. -/
theorem c1_witness :
    Device.alloc_debug ⟨"u", 0, ⟨some "sda", some "ssd", some "4 KiB", some "xxx yyy\n"⟩⟩ [] =
      Except.error (RtError.headerAssertFailed (split_whitespace "xxx yyy")) ∧
    (RtError.headerAssertFailed (split_whitespace "xxx yyy")).isPanicAbort = true :=
  c1_header_mismatch_panics _ [] "xxx yyy\n" "xxx yyy" [] rfl (by decide) (by decide)

/-- C1 counterexample: at a concrete malformed header the parser's outcome
is the header assertion panic (a process abort), not the recoverable
`unexpectedFormat` error result the claim asserts. -/
theorem c1_counterexample :
    Device.alloc_debug ⟨"u", 0, ⟨some "sda", some "ssd", some "4 KiB", some "zzz\n"⟩⟩
      [("fs", "u")] = Except.error (RtError.headerAssertFailed ["zzz"]) ∧
    (RtError.headerAssertFailed ["zzz"]).isPanicAbort = true :=
  ⟨by decide, rfl⟩

/-! ## C9 -/

/-- C9 (amended): in a typed (four-token) row the second (`buckets`) and
fourth (`fragmented`) tokens are ignored entirely — never parsed or
validated: the row loop's result is unchanged when they are replaced by
arbitrary other tokens, so a typed row with non-numeric `buckets` or
`fragmented` is accepted whenever its `sectors` token parses. -/
theorem c9_unused_tokens_ignored (d : Device) (lbls : Labels) (rest : List String)
    (line line' t b sec f b' f' : String)
    (h : split_whitespace line = [t, b, sec, f])
    (h' : split_whitespace line' = [t, b', sec, f']) :
    Device.alloc_rows d lbls (line :: rest) = Device.alloc_rows d lbls (line' :: rest) := by
  have hne : line ≠ "" := by
    intro e
    rw [e, split_whitespace_empty] at h
    simp at h
  have hne' : line' ≠ "" := by
    intro e
    rw [e, split_whitespace_empty] at h'
    simp at h'
  simp [Device.alloc_rows, hne, hne', h, h']

/-- C9 witness: rows `user abc 16 xyz` and `user 1 16 2` (non-numeric
versus numeric unused tokens) are treated identically by the row loop. -/
theorem c9_witness :
    Device.alloc_rows ⟨"u", 0, ⟨none, none, none, none⟩⟩ [] ["user abc 16 xyz"] =
      Device.alloc_rows ⟨"u", 0, ⟨none, none, none, none⟩⟩ [] ["user 1 16 2"] :=
  c9_unused_tokens_ignored _ [] [] "user abc 16 xyz" "user 1 16 2"
    "user" "abc" "16" "xyz" "1" "2" (by decide) (by decide)

/-- C9 counterexample: a typed row whose `buckets` and `fragmented` tokens
are not numbers is accepted — extraction succeeds and produces the metric —
where the claim asserts the row fails with a parse error. -/
theorem c9_counterexample :
    Device.get_metrics ⟨"u", 0, ⟨some "sda", some "ssd\n", some "4 KiB\n",
        some "buckets sectors fragmented\nuser abc 16 xyz\n"⟩⟩ =
      Except.ok [⟨"bcachefs_dev_alloc_bytes",
        [("fs", "u"), ("device_no", "0"), ("device", "sda"), ("label", "ssd"), ("type", "user")],
        8192⟩] := by
  decide

/-! ## String-append helpers and the encoder's shape -/

theorem string_append_assoc (a b c : String) : (a ++ b) ++ c = a ++ (b ++ c) := by
  apply string_data_inj
  simp [string_data_append]

theorem string_append_empty (a : String) : a ++ "" = a := by
  apply string_data_inj
  have h : ("" : String).data = [] := rfl
  simp [string_data_append, h]

theorem string_empty_append (a : String) : "" ++ a = a := by
  apply string_data_inj
  have h : ("" : String).data = [] := rfl
  simp [string_data_append, h]

theorem string_foldl_append (l : List String) :
    ∀ x : String, l.foldl (fun r s => r ++ s) x = x ++ String.join l := by
  induction l with
  | nil =>
    intro x
    simp [String.join, string_append_empty]
  | cons a l ih =>
    intro x
    have hj : String.join (a :: l) = a ++ String.join l := by
      show List.foldl (fun r s => r ++ s) ("" ++ a) l = a ++ String.join l
      rw [ih ("" ++ a), string_empty_append]
    simp only [List.foldl_cons]
    rw [ih (x ++ a), hj, string_append_assoc]

theorem string_join_cons (a : String) (l : List String) :
    String.join (a :: l) = a ++ String.join l := by
  show List.foldl (fun r s => r ++ s) ("" ++ a) l = a ++ String.join l
  rw [string_foldl_append l ("" ++ a), string_empty_append]

theorem encode_labels_aux_join (ls : Labels) :
    ∀ out : String,
      encode_labels_aux out ls =
        out ++ String.join (ls.map (fun kv => kv.1 ++ "=\"" ++ escape_value kv.2 ++ "\",")) := by
  induction ls with
  | nil =>
    intro out
    simp [encode_labels_aux, String.join, string_append_empty]
  | cons kv rest ih =>
    intro out
    obtain ⟨k, v⟩ := kv
    simp only [encode_labels_aux, List.map_cons, string_join_cons]
    rw [ih]
    simp [string_append_assoc]

theorem encode_labels_eq_join (ls : Labels) :
    encode_labels ls =
      String.join (ls.map (fun kv => kv.1 ++ "=\"" ++ escape_value kv.2 ++ "\",")) := by
  rw [encode_labels, encode_labels_aux_join, string_empty_append]

/-! ## C10 -/

/-- C10: the encoded line is the name, an opening brace, one
`key="escaped-value",` group per label pair — a comma after every pair,
the last included — a closing brace, a space, the rendered value and a
newline; with no labels the line is `name`, `\x7b\x7d`, space, value,
newline. -/
theorem c10_encode_trailing_comma (m : Metric) :
    m.encode = m.name ++ "\x7b" ++
        String.join (m.labels.map (fun kv => kv.1 ++ "=\"" ++ escape_value kv.2 ++ "\",")) ++
        "\x7d " ++ Nat.repr m.value ++ "\n" ∧
    (m.labels = [] →
      m.encode = m.name ++ "\x7b\x7d " ++ Nat.repr m.value ++ "\n") := by
  constructor
  · rw [Metric.encode, encode_labels_eq_join]
  · intro hemp
    rw [Metric.encode, hemp]
    apply string_data_inj
    simp [string_data_append, encode_labels]
    rfl

/-- C10 witness: concrete application to a label-free metric, showing the
empty-brace form. -/
theorem c10_witness :
    Metric.encode ⟨"m", [], 7⟩ = "m" ++ "\x7b\x7d " ++ Nat.repr 7 ++ "\n" :=
  (c10_encode_trailing_comma ⟨"m", [], 7⟩).2 rfl

/-! ## Escaping equals its single pass; the conforming reader inverts it -/

theorem replace_char_append (pat : Char) (rep : List Char) (xs ys : List Char) :
    replace_char pat rep (xs ++ ys) =
      replace_char pat rep xs ++ replace_char pat rep ys := by
  induction xs with
  | nil => rfl
  | cons c cs ih => simp [replace_char, ih]

theorem escape_passes_eq_esc_chars (cs : List Char) :
    replace_char '"' ['\\', '"'] (replace_char '\n' ['\\', 'n']
      (replace_char '\\' ['\\', '\\'] cs)) = esc_chars cs := by
  induction cs with
  | nil => rfl
  | cons c cs ih =>
    by_cases h1 : c = '\\'
    · subst h1
      simp [replace_char, replace_char_append, esc_chars, esc_char, ih]
    · by_cases h2 : c = '\n'
      · subst h2
        simp [replace_char, replace_char_append, esc_chars, esc_char, ih]
      · by_cases h3 : c = '"'
        · subst h3
          simp [replace_char, replace_char_append, esc_chars, esc_char, ih]
        · simp [replace_char, replace_char_append, esc_chars, esc_char, h1, h2, h3, ih]

theorem escape_value_data (v : String) : (escape_value v).data = esc_chars v.data :=
  escape_passes_eq_esc_chars v.data

theorem parse_key_prepend (k : List Char) (rest : List Char) (hk : ∀ c ∈ k, c ≠ '=') :
    parse_key (k ++ '=' :: rest) = some (k, rest) := by
  induction k with
  | nil => simp [parse_key]
  | cons c cs ih =>
    have hc : c ≠ '=' := hk c (List.mem_cons_self c cs)
    have ih' := ih (fun x hx => hk x (List.mem_cons_of_mem c hx))
    simp [parse_key, hc, ih']

theorem parse_value_esc (v : List Char) (rest : List Char) :
    parse_value (esc_chars v ++ '"' :: rest) = some (v, rest) := by
  induction v with
  | nil =>
    rw [show esc_chars [] = [] from by simp [esc_chars], List.nil_append, parse_value.eq_def]
    rfl
  | cons c cs ih =>
    by_cases h1 : c = '\\'
    · subst h1
      rw [show esc_chars ('\\' :: cs) = '\\' :: '\\' :: esc_chars cs from by
        simp [esc_chars, esc_char]]
      rw [List.cons_append, List.cons_append, parse_value.eq_def]
      simp [unescape_char, ih]
    · by_cases h2 : c = '\n'
      · subst h2
        rw [show esc_chars ('\n' :: cs) = '\\' :: 'n' :: esc_chars cs from by
          simp [esc_chars, esc_char]]
        rw [List.cons_append, List.cons_append, parse_value.eq_def]
        simp [unescape_char, ih]
      · by_cases h3 : c = '"'
        · subst h3
          rw [show esc_chars ('"' :: cs) = '\\' :: '"' :: esc_chars cs from by
            simp [esc_chars, esc_char]]
          rw [List.cons_append, List.cons_append, parse_value.eq_def]
          simp [unescape_char, ih]
        · rw [show esc_chars (c :: cs) = c :: esc_chars cs from by
            simp [esc_chars, esc_char, h1, h2, h3]]
          rw [List.cons_append, parse_value.eq_def]
          simp only [if_neg h3, if_neg h1, if_neg h2, ih]
          rfl

theorem encode_labels_aux_data (ls : Labels) :
    ∀ out : String, (encode_labels_aux out ls).data = out.data ++ enc_chars ls := by
  induction ls with
  | nil =>
    intro out
    simp [encode_labels_aux, enc_chars]
  | cons kv rest ih =>
    intro out
    obtain ⟨k, v⟩ := kv
    rw [encode_labels_aux, ih]
    have e1 : ("=\"" : String).data = ['=', '"'] := rfl
    have e2 : ("\"," : String).data = ['"', ','] := rfl
    simp [string_data_append, e1, e2, escape_value_data, enc_chars]

theorem encode_labels_data (ls : Labels) : (encode_labels ls).data = enc_chars ls := by
  have h := encode_labels_aux_data ls ""
  have he : ("" : String).data = [] := rfl
  rw [encode_labels, h, he, List.nil_append]

theorem enc_chars_length (ls : Labels) : ls.length ≤ (enc_chars ls).length := by
  induction ls with
  | nil => simp [enc_chars]
  | cons kv rest ih =>
    obtain ⟨k, v⟩ := kv
    simp [enc_chars, List.length_append]
    omega

theorem parse_labels_aux_enc (fuel : Nat) :
    ∀ ls : Labels, (∀ kv ∈ ls, ∀ c ∈ (kv.1 : String).data, c ≠ '=') →
      ls.length ≤ fuel → parse_labels_aux fuel (enc_chars ls) = some ls := by
  induction fuel with
  | zero =>
    intro ls _ hlen
    have h0 : ls = [] := List.length_eq_zero.mp (Nat.le_zero.mp hlen)
    subst h0
    rfl
  | succ fuel ih =>
    intro ls hk hlen
    match ls with
    | [] => rfl
    | (k, v) :: rest =>
      have hne : enc_chars ((k, v) :: rest) ≠ [] := by
        simp [enc_chars]
      rw [parse_labels_aux, if_neg hne]
      have hkey : ∀ c ∈ k.data, c ≠ '=' :=
        hk (k, v) (List.mem_cons_self _ _)
      have hrest : ∀ kv ∈ rest, ∀ c ∈ (kv.1 : String).data, c ≠ '=' :=
        fun kv hkv => hk kv (List.mem_cons_of_mem _ hkv)
      have hlen' : rest.length ≤ fuel := by
        simp at hlen
        omega
      show (match parse_key (enc_chars ((k, v) :: rest)) with
        | none => none
        | some (key, r1) =>
          match r1 with
          | '"' :: r2 =>
            match parse_value r2 with
            | none => none
            | some (v2, r3) =>
              match r3 with
              | ',' :: r4 => (parse_labels_aux fuel r4).map (fun rest2 => (String.mk key, String.mk v2) :: rest2)
              | _ => none
          | _ => none) = some ((k, v) :: rest)
      rw [enc_chars, parse_key_prepend k.data _ hkey]
      show (match parse_value (esc_chars v.data ++ '"' :: ',' :: enc_chars rest) with
        | none => none
        | some (v2, r3) =>
          match r3 with
          | ',' :: r4 => (parse_labels_aux fuel r4).map (fun rest2 => (String.mk k.data, String.mk v2) :: rest2)
          | _ => none) = some ((k, v) :: rest)
      rw [parse_value_esc v.data (',' :: enc_chars rest)]
      show (parse_labels_aux fuel (enc_chars rest)).map
          (fun rest2 => (String.mk k.data, String.mk v.data) :: rest2) = some ((k, v) :: rest)
      rw [ih rest hrest hlen']
      simp [string_mk_data]

/-! ## C3 -/

/-- C3: encoding a metric's labels — escaping backslash first, then
newline, then double-quote — and reading the produced text back with a
conforming exposition-format reader recovers every original label value
exactly, for any values, including ones containing backslashes,
double-quotes, or newlines. (The label keys, drawn from the program's fixed
identifier set, contain no `=` sign.) -/
theorem c3_label_roundtrip (labels : Labels)
    (hk : ∀ kv ∈ labels, ∀ c ∈ (kv.1 : String).data, c ≠ '=') :
    parse_labels (encode_labels labels).data = some labels := by
  have hdata : (encode_labels labels).data = enc_chars labels := encode_labels_data labels
  have hfuel : labels.length ≤ (enc_chars labels).length := enc_chars_length labels
  rw [parse_labels, hdata]
  exact parse_labels_aux_enc _ labels hk hfuel

/-- C3 witness: concrete application to a label whose value contains a
backslash, a newline, and a double-quote. -/
theorem c3_witness :
    parse_labels (encode_labels [("label", "a\\b\nc\"d")]).data =
      some [("label", "a\\b\nc\"d")] :=
  c3_label_roundtrip [("label", "a\\b\nc\"d")] (by decide)

/-! ## C2 -/

theorem alloc_rows_prepend_good (d : Device) (lbls : Labels) :
    ∀ pre : List String, (∀ l ∈ pre, l ≠ "" ∧ good_row d l = true) →
      ∀ suffix : List String, ∃ ms0 : List Metric,
        Device.alloc_rows d lbls (pre ++ suffix) =
          (Device.alloc_rows d lbls suffix).map (fun ms => ms0 ++ ms) := by
  intro pre
  induction pre with
  | nil =>
    intro _ suffix
    refine ⟨[], ?_⟩
    cases h : Device.alloc_rows d lbls suffix <;> simp [h, Except.map]
  | cons l pre ih =>
    intro hpre suffix
    obtain ⟨hne, hgood⟩ := hpre l (List.mem_cons_self _ _)
    have hpre' : ∀ x ∈ pre, x ≠ "" ∧ good_row d x = true :=
      fun x hx => hpre x (List.mem_cons_of_mem _ hx)
    obtain ⟨ms0, hms0⟩ := ih hpre' suffix
    rcases hsw : split_whitespace l with _ | ⟨t, _ | ⟨b2, _ | ⟨c3, _ | ⟨d4, tail4⟩⟩⟩⟩
    · simp only [good_row, hsw] at hgood
      exact absurd hgood (by simp)
    · simp only [good_row, hsw] at hgood
      exact absurd hgood (by simp)
    · -- two tokens: a capacity row
      simp only [good_row, hsw, Bool.and_eq_true, beq_iff_eq] at hgood
      obtain ⟨ht, hok⟩ := hgood
      obtain ⟨v, hv⟩ := (except_isOk_iff _).mp hok
      subst ht
      refine ⟨⟨"bcachefs_dev_capacity", lbls, v⟩ :: ms0, ?_⟩
      rw [List.cons_append]
      simp only [Device.alloc_rows, hne, hsw, hv, hms0, if_neg, reduceIte]
      cases halloc : Device.alloc_rows d lbls suffix <;>
        simp [halloc, Except.map, Bind.bind, Except.bind, hne]
    · simp only [good_row, hsw] at hgood
      exact absurd hgood (by simp)
    · cases tail4 with
      | cons e5 tail5 =>
        simp only [good_row, hsw] at hgood
        exact absurd hgood (by simp)
      | nil =>
        -- four tokens: a typed row
        simp only [good_row, hsw] at hgood
        obtain ⟨v, hv⟩ := (except_isOk_iff _).mp hgood
        refine ⟨⟨"bcachefs_dev_alloc_bytes", lbls ++ [("type", t)], v⟩ :: ms0, ?_⟩
        rw [List.cons_append]
        simp only [Device.alloc_rows, hne, hsw, hv, hms0]
        cases halloc : Device.alloc_rows d lbls suffix <;>
          simp [halloc, Except.map, Bind.bind, Except.bind, hne]

theorem alloc_rows_bad_head (d : Device) (lbls : Labels) (bad : String) (post : List String)
    (hbadne : bad ≠ "") (hshape : bad_row_shape bad = true) :
    Device.alloc_rows d lbls (bad :: post) = Except.error (RtError.lineUnhandled bad) := by
  rcases hsw : split_whitespace bad with _ | ⟨t, _ | ⟨b2, _ | ⟨c3, _ | ⟨d4, tail4⟩⟩⟩⟩
  · simp [Device.alloc_rows, hbadne, hsw]
  · simp [Device.alloc_rows, hbadne, hsw]
  · simp only [bad_row_shape, hsw] at hshape
    have ht : t ≠ "capacity" := by
      intro e
      rw [e] at hshape
      simp at hshape
    simp [Device.alloc_rows, hbadne, hsw, ht]
  · simp [Device.alloc_rows, hbadne, hsw]
  · cases tail4 with
    | nil =>
      simp only [bad_row_shape, hsw] at hshape
      exact absurd hshape (by simp)
    | cons e5 tail5 =>
      simp [Device.alloc_rows, hbadne, hsw]

/-- C2 (amended): a data row whose whitespace token count is neither 4 nor
the two-token `capacity` shape — reached with the header valid and every
earlier row well-formed — makes `Device::alloc_debug` abort with the
`can't handle line` panic carrying that row: a process abort, not a
recoverable `unexpectedFormat` error result, and in particular the row is
never silently skipped. -/
theorem c2_bad_row_panics (d : Device) (lbls : Labels) (s header : String)
    (pre : List String) (bad : String) (post : List String)
    (ha : d.files.allocDebugFile = some s)
    (hl : rust_lines s = header :: (pre ++ bad :: post))
    (hh : split_whitespace header = ["buckets", "sectors", "fragmented"])
    (hpre : ∀ l ∈ pre, l ≠ "" ∧ good_row d l = true)
    (hbadne : bad ≠ "")
    (hshape : bad_row_shape bad = true) :
    Device.alloc_debug d lbls = Except.error (RtError.lineUnhandled bad) ∧
    (RtError.lineUnhandled bad).isPanicAbort = true := by
  refine ⟨?_, rfl⟩
  have hbadrow := alloc_rows_bad_head d lbls bad post hbadne hshape
  obtain ⟨ms0, hms0⟩ := alloc_rows_prepend_good d lbls pre hpre (bad :: post)
  simp [Device.alloc_debug, ha, hl, hh, hms0, hbadrow, Except.map]

/-- C2 witness: concrete application to a table with a valid header, one
good typed row, and then a three-token row. -/
theorem c2_witness :
    Device.alloc_debug
        ⟨"u", 0, ⟨some "sda", some "ssd", some "4 KiB",
          some "buckets sectors fragmented\nuser 1 16 2\nfoo 1 2\n"⟩⟩ [] =
      Except.error (RtError.lineUnhandled "foo 1 2") ∧
    (RtError.lineUnhandled "foo 1 2").isPanicAbort = true :=
  c2_bad_row_panics _ [] "buckets sectors fragmented\nuser 1 16 2\nfoo 1 2\n"
    "buckets sectors fragmented" ["user 1 16 2"] "foo 1 2" []
    rfl (by decide) (by decide) (by decide) (by decide) (by decide)

/-- C2 counterexample: at a concrete three-token row the parser's outcome
is the unhandled-line panic (a process abort), not the recoverable
`unexpectedFormat` error result the claim asserts, and not a skip. -/
theorem c2_counterexample :
    Device.alloc_debug
        ⟨"u", 0, ⟨some "sda", some "ssd", some "4 KiB",
          some "buckets sectors fragmented\nbar 3 4\n"⟩⟩ [("fs", "u")] =
      Except.error (RtError.lineUnhandled "bar 3 4") ∧
    (RtError.lineUnhandled "bar 3 4").isPanicAbort = true :=
  ⟨by decide, rfl⟩

/-! ## C6 -/

theorem alloc_rows_ok_shape (d : Device) (lbls : Labels) :
    ∀ (lines : List String) (ms : List Metric),
      Device.alloc_rows d lbls lines = Except.ok ms →
      ((∀ m ∈ ms,
          (m.name = "bcachefs_dev_alloc_bytes" ∧ ∃ t, m.labels = lbls ++ [("type", t)]) ∨
          (m.name = "bcachefs_dev_capacity" ∧ m.labels = lbls)) ∧
        ms.countP (fun m => m.name == "bcachefs_dev_alloc_bytes") =
          (lines.takeWhile (fun l => !(l == ""))).countP typed_row_shape ∧
        ms.countP (fun m => m.name == "bcachefs_dev_capacity") =
          (lines.takeWhile (fun l => !(l == ""))).countP capacity_row_shape) := by
  intro lines
  induction lines with
  | nil =>
    intro ms h
    simp only [Device.alloc_rows, Except.ok.injEq] at h
    subst h
    simp
  | cons line rest ih =>
    intro ms h
    by_cases hline : line = ""
    · subst hline
      simp only [Device.alloc_rows, reduceIte, Except.ok.injEq] at h
      subst h
      simp
    · rcases hsw : split_whitespace line with _ | ⟨t, _ | ⟨b2, _ | ⟨c3, _ | ⟨d4, tail4⟩⟩⟩⟩
      · simp [Device.alloc_rows, hline, hsw] at h
      · simp [Device.alloc_rows, hline, hsw] at h
      · -- two tokens: must be a capacity row, else the loop errors
        by_cases ht : t = "capacity"
        · subst ht
          simp only [Device.alloc_rows, hline, hsw, reduceIte, if_neg] at h
          rw [except_bind_eq_ok] at h
          obtain ⟨v, hv, h⟩ := h
          rw [except_bind_eq_ok] at h
          obtain ⟨ms2, hrest, h⟩ := h
          simp only [Except.ok.injEq] at h
          subst h
          obtain ⟨hshape, hcnt1, hcnt2⟩ := ih ms2 hrest
          refine ⟨?_, ?_, ?_⟩
          · intro m hm
            rcases List.mem_cons.mp hm with hm | hm
            · subst hm
              exact Or.inr ⟨rfl, rfl⟩
            · exact hshape m hm
          · have e1 : typed_row_shape line = false := by simp [typed_row_shape, hsw]
            have e2 : (("bcachefs_dev_capacity" : String) ==
                "bcachefs_dev_alloc_bytes") = false := by decide
            simp [List.takeWhile_cons, List.countP_cons, hline, e1, e2, hcnt1]
          · have e1 : capacity_row_shape line = true := by simp [capacity_row_shape, hsw]
            have e2 : (("bcachefs_dev_capacity" : String) ==
                "bcachefs_dev_capacity") = true := by decide
            simp [List.takeWhile_cons, List.countP_cons, hline, e1, e2, hcnt2]
        · simp [Device.alloc_rows, hline, hsw, ht] at h
      · simp [Device.alloc_rows, hline, hsw] at h
      · cases tail4 with
        | cons e5 tail5 => simp [Device.alloc_rows, hline, hsw] at h
        | nil =>
          simp only [Device.alloc_rows, hline, hsw, reduceIte, if_neg] at h
          rw [except_bind_eq_ok] at h
          obtain ⟨v, hv, h⟩ := h
          rw [except_bind_eq_ok] at h
          obtain ⟨ms2, hrest, h⟩ := h
          simp only [Except.ok.injEq] at h
          subst h
          obtain ⟨hshape, hcnt1, hcnt2⟩ := ih ms2 hrest
          refine ⟨?_, ?_, ?_⟩
          · intro m hm
            rcases List.mem_cons.mp hm with hm | hm
            · subst hm
              exact Or.inl ⟨rfl, t, rfl⟩
            · exact hshape m hm
          · have e1 : typed_row_shape line = true := by simp [typed_row_shape, hsw]
            have e2 : (("bcachefs_dev_alloc_bytes" : String) ==
                "bcachefs_dev_alloc_bytes") = true := by decide
            simp [List.takeWhile_cons, List.countP_cons, hline, e1, e2, hcnt1]
          · have e1 : capacity_row_shape line = false := by simp [capacity_row_shape, hsw]
            have e2 : (("bcachefs_dev_alloc_bytes" : String) ==
                "bcachefs_dev_capacity") = false := by decide
            simp [List.takeWhile_cons, List.countP_cons, hline, e1, e2, hcnt2]

/-- C6 (amended): for every successfully extracted device, each produced
metric is either a `bcachefs_dev_alloc_bytes` metric labelled with the base
labels `fs, device_no, device, label` in that insertion order plus a
trailing `type` label, or a `bcachefs_dev_capacity` metric carrying exactly
the base labels; there is exactly one alloc metric per typed (4-token) row
and exactly one capacity metric per capacity row of the table — so exactly
one capacity metric when the table has exactly one capacity row, and none
when it has none. -/
theorem c6_metrics_shape (d : Device) (bn lf s header : String)
    (dataLines : List String) (ms : List Metric)
    (hb : d.files.blockLinkTarget = some bn)
    (hlf : d.files.labelFile = some lf)
    (ha : d.files.allocDebugFile = some s)
    (hlines : rust_lines s = header :: dataLines)
    (h : d.get_metrics = Except.ok ms) :
    (∀ m ∈ ms,
      (m.name = "bcachefs_dev_alloc_bytes" ∧
        ∃ t, m.labels = [("fs", d.fs_uuid), ("device_no", Nat.repr d.device_no),
          ("device", bn), ("label", rust_trim lf), ("type", t)]) ∨
      (m.name = "bcachefs_dev_capacity" ∧
        m.labels = [("fs", d.fs_uuid), ("device_no", Nat.repr d.device_no),
          ("device", bn), ("label", rust_trim lf)])) ∧
    ms.countP (fun m => m.name == "bcachefs_dev_alloc_bytes") =
      (dataLines.takeWhile (fun l => !(l == ""))).countP typed_row_shape ∧
    ms.countP (fun m => m.name == "bcachefs_dev_capacity") =
      (dataLines.takeWhile (fun l => !(l == ""))).countP capacity_row_shape := by
  simp only [Device.get_metrics, hb, hlf, Bind.bind, Except.bind] at h
  simp only [Device.alloc_debug, ha, hlines] at h
  by_cases hh : split_whitespace header = ["buckets", "sectors", "fragmented"]
  · rw [if_pos hh] at h
    have hmain := alloc_rows_ok_shape d
      [("fs", d.fs_uuid), ("device_no", Nat.repr d.device_no),
        ("device", bn), ("label", rust_trim lf)] dataLines ms h
    obtain ⟨hshape, hcnt1, hcnt2⟩ := hmain
    refine ⟨?_, hcnt1, hcnt2⟩
    intro m hm
    rcases hshape m hm with ⟨hn, t, hl⟩ | ⟨hn, hl⟩
    · refine Or.inl ⟨hn, t, ?_⟩
      rw [hl]
      rfl
    · exact Or.inr ⟨hn, hl⟩
  · rw [if_neg hh] at h
    cases h

/-- C6 witness: concrete application to the specification's end-to-end
scenario, one typed row and one capacity row, giving one alloc metric and
one capacity metric. -/
theorem c6_witness :
    ([⟨"bcachefs_dev_alloc_bytes",
        [("fs", "11111111-1111-1111-1111-111111111111"), ("device_no", "0"),
         ("device", "sda"), ("label", "ssd"), ("type", "user")], 10240⟩,
      ⟨"bcachefs_dev_capacity",
        [("fs", "11111111-1111-1111-1111-111111111111"), ("device_no", "0"),
         ("device", "sda"), ("label", "ssd")], 409600⟩] : List Metric).countP
        (fun m => m.name == "bcachefs_dev_alloc_bytes") =
      ((["user 10 20 0", "capacity 100"] : List String).takeWhile
        (fun l => !(l == ""))).countP typed_row_shape ∧
    ([⟨"bcachefs_dev_alloc_bytes",
        [("fs", "11111111-1111-1111-1111-111111111111"), ("device_no", "0"),
         ("device", "sda"), ("label", "ssd"), ("type", "user")], 10240⟩,
      ⟨"bcachefs_dev_capacity",
        [("fs", "11111111-1111-1111-1111-111111111111"), ("device_no", "0"),
         ("device", "sda"), ("label", "ssd")], 409600⟩] : List Metric).countP
        (fun m => m.name == "bcachefs_dev_capacity") =
      ((["user 10 20 0", "capacity 100"] : List String).takeWhile
        (fun l => !(l == ""))).countP capacity_row_shape :=
  (c6_metrics_shape
    ⟨"11111111-1111-1111-1111-111111111111", 0,
      ⟨some "sda", some "ssd\n", some "4 KiB\n",
        some "buckets sectors fragmented\nuser 10 20 0\ncapacity 100\n"⟩⟩
    "sda" "ssd\n" "buckets sectors fragmented\nuser 10 20 0\ncapacity 100\n"
    "buckets sectors fragmented" ["user 10 20 0", "capacity 100"] _
    rfl rfl rfl (by decide) (by decide)).2

/-- C6 counterexample: a successfully extracted device whose table has no
capacity row yields zero `bcachefs_dev_capacity` metrics, where the claim
asserts exactly one per successfully extracted device. -/
theorem c6_counterexample :
    Device.get_metrics ⟨"u", 0, ⟨some "sda", some "ssd\n", some "4 KiB\n",
        some "buckets sectors fragmented\nuser 1 16 0\n"⟩⟩ =
      Except.ok [⟨"bcachefs_dev_alloc_bytes",
        [("fs", "u"), ("device_no", "0"), ("device", "sda"), ("label", "ssd"),
         ("type", "user")], 8192⟩] ∧
    ([(⟨"bcachefs_dev_alloc_bytes",
        [("fs", "u"), ("device_no", "0"), ("device", "sda"), ("label", "ssd"),
         ("type", "user")], 8192⟩ : Metric)].countP
        (fun m => m.name == "bcachefs_dev_capacity")) = 0 :=
  ⟨by decide, by decide⟩

/-! ## C7 -/

theorem find_bcachefs_error_of_bad (root : List FsEntry) (fse : FsEntry)
    (hmem : fse ∈ root) (hbad : parse_uuid fse.name = none) :
    ∃ e, find_bcachefs root = Except.error e := by
  induction root with
  | nil => cases hmem
  | cons x rest ih =>
    rcases List.mem_cons.mp hmem with rfl | hmem2
    · exact ⟨.err (.discoveryError fse.name), by simp [find_bcachefs, hbad]⟩
    · cases hx : parse_uuid x.name with
      | none => exact ⟨.err (.discoveryError x.name), by simp [find_bcachefs, hx]⟩
      | some u =>
        obtain ⟨e, he⟩ := ih hmem2
        exact ⟨e, by simp [find_bcachefs, hx, he, Bind.bind, Except.bind]⟩

theorem find_bcachefs_ok_mem (root : List FsEntry)
    (fss : List (String × List DirEntry)) (h : find_bcachefs root = Except.ok fss) :
    ∀ fse ∈ root, ∀ u, parse_uuid fse.name = some u → (u, fse.entries) ∈ fss := by
  induction root generalizing fss with
  | nil =>
    intro fse hmem
    cases hmem
  | cons x rest ih =>
    intro fse hmem u hu
    cases hx : parse_uuid x.name with
    | none => simp [find_bcachefs, hx] at h
    | some ux =>
      simp only [find_bcachefs, hx] at h
      rw [except_bind_eq_ok] at h
      obtain ⟨tl, hrest, h⟩ := h
      simp only [Except.ok.injEq] at h
      subst h
      rcases List.mem_cons.mp hmem with rfl | hmem2
      · rw [hx] at hu
        obtain rfl : ux = u := Option.some.inj hu
        exact List.mem_cons_self _ _
      · exact List.mem_cons_of_mem _ (ih tl hrest fse hmem2 u hu)

theorem metrics_of_fss_error (fss : List (String × List DirEntry)) (u : String)
    (es : List DirEntry) (hmem : (u, es) ∈ fss)
    (hbad : (Fs.get_metrics u es).isOk = false) :
    ∃ e, metrics_of_fss fss = Except.error e := by
  induction fss with
  | nil => cases hmem
  | cons x rest ih =>
    obtain ⟨ux, esx⟩ := x
    cases hx : Fs.get_metrics ux esx with
    | error e => exact ⟨e, by simp [metrics_of_fss, hx, Bind.bind, Except.bind]⟩
    | ok mx =>
      rcases List.mem_cons.mp hmem with heq | hmem2
      · injection heq with h1 h2
        subst h1
        subst h2
        rw [hx] at hbad
        simp [Except.isOk, Except.toBool] at hbad
      · obtain ⟨e, he⟩ := ih hmem2
        exact ⟨e, by simp [metrics_of_fss, hx, he, Bind.bind, Except.bind]⟩

/-- C7: if parsing any root entry as a filesystem identifier fails, or if
any filesystem's device walk or device extraction fails, the whole
collection returns an error and never an `ok` metric list — no metrics at
all, not even those of filesystems or devices processed earlier in the same
call. -/
theorem c7_collect_all_atomic (root : List FsEntry)
    (h : (∃ fse ∈ root, parse_uuid fse.name = none) ∨
         (∃ fse ∈ root, ∃ u, parse_uuid fse.name = some u ∧
            (Fs.get_metrics u fse.entries).isOk = false)) :
    (∃ e, get_metrics root = Except.error e) ∧
    ∀ ms : List Metric, get_metrics root ≠ Except.ok ms := by
  have hmain : ∃ e, get_metrics root = Except.error e := by
    rcases h with ⟨fse, hmem, hbad⟩ | ⟨fse, hmem, u, hu, hbad⟩
    · obtain ⟨e, he⟩ := find_bcachefs_error_of_bad root fse hmem hbad
      exact ⟨e, by simp [get_metrics, he]⟩
    · cases hfb : find_bcachefs root with
      | error e => exact ⟨e, by simp [get_metrics, hfb]⟩
      | ok fss =>
        have hmem2 := find_bcachefs_ok_mem root fss hfb fse hmem u hu
        obtain ⟨e, he⟩ := metrics_of_fss_error fss u fse.entries hmem2 hbad
        exact ⟨e, by simp [get_metrics, hfb, he]⟩
  refine ⟨hmain, ?_⟩
  obtain ⟨e, he⟩ := hmain
  intro ms hms
  rw [he] at hms
  cases hms

/-- C7 witness: a filesystem with one device whose label file is missing;
the collection fails rather than returning any metrics. -/
theorem c7_witness :
    (get_metrics [⟨"11111111-1111-1111-1111-111111111111",
        [⟨"dev-0", ⟨some "sda", none, none, none⟩⟩]⟩]).isOk = false := by
  obtain ⟨e, he⟩ := (c7_collect_all_atomic
    [⟨"11111111-1111-1111-1111-111111111111", [⟨"dev-0", ⟨some "sda", none, none, none⟩⟩]⟩]
    (Or.inr ⟨⟨"11111111-1111-1111-1111-111111111111",
        [⟨"dev-0", ⟨some "sda", none, none, none⟩⟩]⟩,
      List.mem_cons_self _ _, "11111111-1111-1111-1111-111111111111",
      by decide, by decide⟩)).1
  rw [he]
  rfl

/-! ## C8 -/

theorem find_devices_ok (fsu : String) :
    ∀ (entries : List DirEntry) (ds : List Device),
      Fs.find_devices fsu entries = Except.ok ds →
      (ds = entries.filterMap (fun e =>
          if starts_with_dev e.name then
            (parseU64 (dev_suffix e.name)).map (fun n => (⟨fsu, n, e.files⟩ : Device))
          else none) ∧
        ∀ e ∈ entries, starts_with_dev e.name = true →
          (parseU64 (dev_suffix e.name)).isSome) := by
  intro entries
  induction entries with
  | nil =>
    intro ds h
    simp only [Fs.find_devices, Except.ok.injEq] at h
    subst h
    simp
  | cons x rest ih =>
    intro ds h
    by_cases hd : starts_with_dev x.name
    · cases hp : parseU64 (dev_suffix x.name) with
      | none => simp [Fs.find_devices, hd, hp] at h
      | some n =>
        simp only [Fs.find_devices, hd, hp, reduceIte] at h
        rw [except_bind_eq_ok] at h
        obtain ⟨ds2, hrest, h⟩ := h
        simp only [Except.ok.injEq] at h
        subst h
        obtain ⟨hfm, hall⟩ := ih ds2 hrest
        constructor
        · simp [List.filterMap_cons, hd, hp, hfm]
        · intro e hmem hstart
          rcases List.mem_cons.mp hmem with rfl | hmem2
          · simp [hp]
          · exact hall e hmem2 hstart
    · simp only [Fs.find_devices, hd, Bool.false_eq_true, reduceIte] at h
      obtain ⟨hfm, hall⟩ := ih ds h
      constructor
      · simp [List.filterMap_cons, hd, hfm]
      · intro e hmem hstart
        rcases List.mem_cons.mp hmem with rfl | hmem2
        · exact absurd hstart (by simp [hd])
        · exact hall e hmem2 hstart

theorem find_devices_error (fsu : String) :
    ∀ (entries : List DirEntry) (er : RtError),
      Fs.find_devices fsu entries = Except.error er →
      ∃ e ∈ entries, starts_with_dev e.name = true ∧
        parseU64 (dev_suffix e.name) = none := by
  intro entries
  induction entries with
  | nil =>
    intro er h
    simp [Fs.find_devices] at h
  | cons x rest ih =>
    intro er h
    by_cases hd : starts_with_dev x.name
    · cases hp : parseU64 (dev_suffix x.name) with
      | none => exact ⟨x, List.mem_cons_self _ _, hd, hp⟩
      | some n =>
        simp only [Fs.find_devices, hd, hp, reduceIte] at h
        cases hrest : Fs.find_devices fsu rest with
        | error e2 =>
          obtain ⟨e, hmem, he⟩ := ih e2 hrest
          exact ⟨e, List.mem_cons_of_mem _ hmem, he⟩
        | ok ds =>
          rw [hrest] at h
          simp [Bind.bind, Except.bind] at h
    · simp only [Fs.find_devices, hd, Bool.false_eq_true, reduceIte] at h
      obtain ⟨e, hmem, he⟩ := ih er h
      exact ⟨e, List.mem_cons_of_mem _ hmem, he⟩

/-- C8: `Fs::find_devices` silently skips every directory entry whose name
does not start with `dev-` (no error, no device from it), while any entry
whose name starts with `dev-` but whose suffix fails to parse as a device
ordinal yields a discovery error; on success the device list is exactly the
parsed `dev-` entries in order, and a discovery error propagates to the
filesystem's metric collection, aborting it. -/
theorem c8_find_devices_spec (fsu : String) (entries : List DirEntry) :
    (match Fs.find_devices fsu entries with
     | .ok ds =>
        ds = entries.filterMap (fun e =>
          if starts_with_dev e.name then
            (parseU64 (dev_suffix e.name)).map (fun n => (⟨fsu, n, e.files⟩ : Device))
          else none) ∧
        ∀ e ∈ entries, starts_with_dev e.name = true →
          (parseU64 (dev_suffix e.name)).isSome
     | .error _ =>
        ∃ e ∈ entries, starts_with_dev e.name = true ∧
          parseU64 (dev_suffix e.name) = none) ∧
    (∀ er, Fs.find_devices fsu entries = Except.error er →
      Fs.get_metrics fsu entries = Except.error er) := by
  constructor
  · cases hfd : Fs.find_devices fsu entries with
    | ok ds => exact find_devices_ok fsu entries ds hfd
    | error er => exact find_devices_error fsu entries er hfd
  · intro er h
    simp [Fs.get_metrics, h]

/-- C8 witness: concrete application — a non-`dev-` entry is skipped, and a
`dev-abc` entry aborts the filesystem's collection with the discovery
error. -/
theorem c8_witness :
    Fs.get_metrics "u" [⟨"btree_cache", ⟨none, none, none, none⟩⟩,
        ⟨"dev-abc", ⟨none, none, none, none⟩⟩] =
      Except.error (RtError.err (CollectError.discoveryError "dev-abc")) :=
  (c8_find_devices_spec "u"
      [⟨"btree_cache", ⟨none, none, none, none⟩⟩,
       ⟨"dev-abc", ⟨none, none, none, none⟩⟩]).2
    (RtError.err (CollectError.discoveryError "dev-abc")) (by decide)

end BcachefsExporter
